import Mathlib

/-!
Shallow embedding of the `package.js` component installer.

The repository holds two parallel drafts of the same module: a
callback-based draft (the first half of `src/index.js`, here suffixed
`A` where the drafts differ) and a generator/`co`-based draft (the
second half of `src/index.js`, suffixed `B`).  Pure string and path
computations are shared between the drafts.  Stateful control flow
(the mirror-failover loop of `reallyInstall`, the `install`
entry point, the process-wide in-flight registry) is embedded as
explicit state passing over an oracle for the network, recording the
observable I/O actions of a run as a trace of events.
-/

/-- A parsed manifest (`component.json`) as consumed by
`reallyInstall`: seven optional file-category lists, an optional
dependency map and an optional `repo` field. -/
structure Manifest where
  scripts : Option (List String) := none
  styles : Option (List String) := none
  templates : Option (List String) := none
  files : Option (List String) := none
  images : Option (List String) := none
  fonts : Option (List String) := none
  json : Option (List String) := none
  dependencies : Option (List (String × String)) := none
  repo : Option String := none
deriving Repr, DecidableEq

/-- Constructor options (`src/index.js` lines 53-74): `dest`, `remotes`,
`force`, `concurrency`.  `auth`, `netrc` and `proxy` do not matter to
any claim and are omitted. -/
structure Options where
  dest : Option String := none
  remotes : Option (List String) := none
  force : Bool := false
  concurrency : Option Nat := none
deriving Repr, DecidableEq

/-- The `Package` object's fields as set by the constructor.
`remote` is the active mirror bound during `reallyInstall`
(the stripped `href`); `inFlight` records whether the slug was already
in the process-wide registry when the package was constructed
(`src/index.js` lines 69-72 replace `install` with an immediate
`end` emission in that case). -/
structure Pkg where
  name : String
  version : String
  slug : String
  dest : String
  remotes : List String
  force : Bool
  concurrency : Option Nat := none
  remote : Option String := none
  inFlight : Bool := false
deriving Repr, DecidableEq

/-- Default mirror list (`src/index.js` line 62). -/
def defaultRemotes : List String := ["https://raw.github.com"]

/-- The slug `pkg + "@" + version` computed after the `"*" → "master"`
normalization of the constructor. -/
def slugOf (pkg version : String) : String :=
  pkg ++ "@" ++ (if version == "*" then "master" else version)

/-- The constructor `Package(pkg, version, options)` of the callback
draft (`src/index.js` lines 53-74), threaded through the process-wide
in-flight registry (a list of slugs).  It normalizes `"*"` to
`"master"`, throws (`Except.error`-style first component) on an empty
`pkg` or `version` before touching the registry, records whether the
slug was already in flight, and then marks the slug.  The constructor
performs no I/O, so no event trace is produced here. -/
def makePackage (pkg version : String) (opts : Options) (reg : List String) :
    Except String Pkg × List String :=
  let version := if version == "*" then "master" else version
  if pkg == "" then (Except.error "pkg required", reg)
  else if version == "" then (Except.error "version required", reg)
  else
    let slug := pkg ++ "@" ++ version
    let p : Pkg := {
      name := pkg
      version := version
      slug := slug
      dest := opts.dest.getD "components"
      remotes := opts.remotes.getD defaultRemotes
      force := opts.force
      concurrency := opts.concurrency
      remote := none
      inFlight := reg.contains slug }
    (Except.ok p, if reg.contains slug then reg else slug :: reg)

/-- JavaScript's `String.prototype.toLowerCase` on one character,
restricted to ASCII (the only case the package names here exercise). -/
def lowerChar (c : Char) : Char :=
  if 65 ≤ c.toNat ∧ c.toNat ≤ 90 then Char.ofNat (c.toNat + 32) else c

/-- `name.toLowerCase()`. -/
def lowerCase (s : String) : String :=
  ⟨s.data.map lowerChar⟩

/-- `name.split('/').join('-')`: every occurrence of the namespace
separator becomes a hyphen. -/
def hyphenate (s : String) : String :=
  ⟨s.data.map (fun c => if c == '/' then '-' else c)⟩

/-- `~name.indexOf('/')` as a boolean: does the string contain the
namespace separator? -/
def hasSlash (s : String) : Bool :=
  s.data.contains '/'

/-- `Package.prototype.dirname` of the callback draft
(`src/index.js` lines 91-93): lower-case the name, replace the
namespace separator with a hyphen and resolve under `dest`.
`path.resolve` is modelled relative to the working directory, i.e. as
plain path concatenation. -/
def dirnameA (p : Pkg) : String :=
  p.dest ++ "/" ++ hyphenate (lowerCase p.name)

/-- `Package.prototype.join` (`src/index.js` lines 103-105). -/
def joinA (p : Pkg) (path : String) : String :=
  dirnameA p ++ "/" ++ path

/-- The character sequence after the first `://`, if any. -/
def afterScheme : List Char → Option (List Char)
  | ':' :: '/' :: '/' :: rest => some rest
  | _ :: rest => afterScheme rest
  | [] => none

/-- Node's `url.parse(m).href` for a base URL: a bare
`scheme://host` gains a trailing slash, a URL that already has a path
is returned unchanged (modelling of the Node standard library at the
boundary, for well-formed lower-case base URLs). -/
def urlParseHref (m : String) : String :=
  match afterScheme m.data with
  | some rest => if rest.contains '/' then m else m ++ "/"
  | none => m

/-- The active-mirror base bound by `reallyInstall`:
`url.parse(remote).href` with its last character sliced off
(`self.remote.href = self.remote.href.slice(0, -1)`,
`src/index.js` line 325). -/
def remoteHref (m : String) : String :=
  ⟨(urlParseHref m).data.dropLast⟩

/-- The URL built by `Package.prototype.url` (`src/index.js`
lines 115-121) once a base has been chosen: plain string
concatenation with `/` separators. -/
def urlWith (base name version file : String) : String :=
  base ++ "/" ++ name ++ "/" ++ version ++ "/" ++ file

/-- `Package.prototype.url`: the base is the active remote's stripped
`href` when one is bound, else `remotes[0]` (an absent element reads
as the string `"undefined"` under JavaScript coercion). -/
def Pkg.url (p : Pkg) (file : String) : String :=
  urlWith (p.remote.getD (p.remotes.headD "undefined")) p.name p.version file

/-- The specification's description of URL construction
(§4.1 `urlFor`): `mirror + "/" + name + "/" + version + "/" + file`. -/
def urlForSpec (mirror name version file : String) : String :=
  mirror ++ "/" ++ name ++ "/" ++ version ++ "/" ++ file

/-- A typed fetch error as built by `error(res, url)`
(`src/index.js` lines 389-394): the numeric HTTP status is stored in
the `status` field, the offending URL in the message (and, for direct
reference, in the `url` field); a network-level failure has no
status. -/
structure ErrObj where
  status : Option Nat := none
  url : Option String := none
  msg : String := ""
deriving Repr, DecidableEq

/-- The human name looked up in `http.STATUS_CODES`
(modelling of the Node standard library, restricted to the codes the
development mentions). -/
def statusName (s : Nat) : String :=
  if s == 200 then "OK"
  else if s == 204 then "No Content"
  else if s == 400 then "Bad Request"
  else if s == 404 then "Not Found"
  else if s == 500 then "Internal Server Error"
  else "unknown"

/-- `error(res, url)` (`src/index.js` lines 389-394). -/
def errorOf (s : Nat) (u : String) : ErrObj :=
  { status := some s
    url := some u
    msg := "failed to fetch " ++ u ++ ", got " ++ toString s ++ " \"" ++ statusName s ++ "\"" }

/-- What the HTTP client hands back for one request: a response with a
status code and parsed body, or a transport-level failure tagged with
the failing syscall. -/
inductive RawResult
  | res (statusCode : Nat) (body : Manifest)
  | netFail (syscall : String) (msg : String)
deriving Repr, DecidableEq

/-- `Package.prototype.getJSON` of the callback draft
(`src/index.js` lines 168-186), as a function of the raw result of the
single GET it issues: a transport failure is passed through with the
`getaddrinfo` message rewritten to `"dns lookup failed"`; a response
succeeds exactly when `statusCode` is `200`, any other status becomes
`error(res, url)`. -/
def getJSON_A (u : String) (r : RawResult) : Except ErrObj Manifest :=
  match r with
  | RawResult.netFail syscall msg =>
      Except.error { status := none
                     url := none
                     msg := if syscall == "getaddrinfo" then "dns lookup failed" else msg }
  | RawResult.res s body =>
      if s == 200 then Except.ok body else Except.error (errorOf s u)

/-- `Package.prototype.getJSON` of the generator draft
(`src/index.js` lines 557-585): the transport failure additionally
appends `" in " + url` for non-DNS errors, and the status test is
`res.statusCode !== 400` — i.e. the fetch succeeds exactly when the
status is `400`. -/
def getJSON_B (u : String) (r : RawResult) : Except ErrObj Manifest :=
  match r with
  | RawResult.netFail syscall msg =>
      Except.error { status := none
                     url := none
                     msg := if syscall == "getaddrinfo" then "dns lookup failed"
                            else msg ++ " in " ++ u }
  | RawResult.res s body =>
      if s == 400 then Except.ok body else Except.error (errorOf s u)

/-- The transfer set built from a manifest by `reallyInstall`
(`src/index.js` lines 339-346): start from the empty list and append
each present category in the fixed source order. -/
def filesOf (m : Manifest) : List String :=
  let fs : List String := []
  let fs := match m.scripts with | some l => fs ++ l | none => fs
  let fs := match m.styles with | some l => fs ++ l | none => fs
  let fs := match m.templates with | some l => fs ++ l | none => fs
  let fs := match m.files with | some l => fs ++ l | none => fs
  let fs := match m.images with | some l => fs ++ l | none => fs
  let fs := match m.fonts with | some l => fs ++ l | none => fs
  let fs := match m.json with | some l => fs ++ l | none => fs
  fs

/-- Observable I/O actions of an installation run, in order.
`fetchErr` and `batchErr` record an `error` emission together with the
`fatal` flag set on the error object and the value of the loop's
`last` flag at that point; `fatalEmit` is the terminal
`can't find remote` error emitted after `destroy`. -/
inductive Ev
  | getManifest (murl : String)
  | fetchErr (status : Option Nat) (fatal : Bool) (lastMirror : Bool)
  | mkdirEv (dir : String)
  | writeFileEv (path : String)
  | getFileEv (furl : String) (dst : String)
  | batchErr (fatal : Bool) (lastMirror : Bool)
  | rmrf (dir : String)
  | fatalEmit
  | fsExists (path : String)
deriving Repr, DecidableEq

/-- Terminal outcome of `reallyInstall`: success with the active
mirror base that served the manifest, or failure after the mirror list
is exhausted. -/
inductive Outcome
  | success (activeBase : String)
  | failed
deriving Repr, DecidableEq

/-- The `Batch` phase of the callback draft's `reallyInstall`
(`src/index.js` lines 332-367): install the dependencies (child
installations are abstracted into the `depResult` oracle, consulted
only when the manifest has a `dependencies` field), mkdir and write
`component.json`, and fetch every file of the transfer set via
`getFiles`, each at `self.url(file)` with destination
`self.join(file)`.  A file response whose status is not `200` fails
the batch (the source's `done(err(res, url))` on that line calls the
null callback argument instead of `error(res, url)` — a slip; the
model uses the evident intent, a typed error carrying status and
URL).  Returns the batch error, if any, and the events of the
phase. -/
def runBatchA (p : Pkg) (base : String) (m : Manifest)
    (fileStatus : String → Nat) (depResult : Option ErrObj) :
    Option ErrObj × List Ev :=
  let files := filesOf m
  let depErr : Option ErrObj :=
    match m.dependencies with
    | none => none
    | some _ => depResult
  let fileEvs := files.map (fun f =>
    Ev.getFileEv (urlWith base p.name p.version f) (joinA p f))
  let badFiles := files.filter (fun f =>
    fileStatus (urlWith base p.name p.version f) != 200)
  let fileErr : Option ErrObj := badFiles.head?.map (fun f =>
    errorOf (fileStatus (urlWith base p.name p.version f)) (urlWith base p.name p.version f))
  let evs := [Ev.mkdirEv (dirnameA p), Ev.writeFileEv (joinA p "component.json"),
              Ev.mkdirEv (dirnameA p)] ++ fileEvs
  (depErr <|> fileErr, evs)

/-- The mirror-failover loop of the callback draft's `reallyInstall`
(`src/index.js` lines 303-378), recursing over the remaining mirror
list.  Exhaustion (`!self.remote`) destroys the package directory and
then emits the terminal error.  Otherwise the mirror's `href` is
stripped, the manifest is fetched through `getJSON_A`; a fetch error
is marked `fatal = (404 != err.status) || last` and — because
`self.once('error', next)` is armed — the loop advances regardless;
on success the batch runs, a batch error is marked `fatal = last` and
the loop likewise advances. -/
def loopA (p : Pkg) (fetch : String → RawResult) (fileStatus : String → Nat)
    (depResult : Option ErrObj) : List String → Outcome × List Ev
  | [] => (Outcome.failed, [Ev.rmrf (dirnameA p), Ev.fatalEmit])
  | r :: rest =>
    let base := remoteHref r
    let murl := urlWith base p.name p.version "component.json"
    match getJSON_A murl (fetch murl) with
    | Except.error e =>
      let lastM := rest.isEmpty
      let fatal := (e.status != some 404) || lastM
      let next := loopA p fetch fileStatus depResult rest
      (next.fst, Ev.getManifest murl :: Ev.fetchErr e.status fatal lastM :: next.snd)
    | Except.ok m =>
      let b := runBatchA p base m fileStatus depResult
      match b.fst with
      | none => (Outcome.success base, Ev.getManifest murl :: b.snd)
      | some _ =>
        let lastM := rest.isEmpty
        let next := loopA p fetch fileStatus depResult rest
        (next.fst, Ev.getManifest murl :: (b.snd ++ Ev.batchErr lastM lastM :: next.snd))

/-- `Package.prototype.reallyInstall` of the callback draft: run the
mirror loop over the package's remotes. -/
def runA (p : Pkg) (fetch : String → RawResult) (fileStatus : String → Nat)
    (depResult : Option ErrObj) : Outcome × List Ev :=
  loopA p fetch fileStatus depResult p.remotes

/-- Result of the `install` entry point of the callback draft. -/
inductive InstallOut
  | ended
  | invalidName (msg : String)
  | existsSignal
  | ran (o : Outcome)
deriving Repr, DecidableEq

/-- `Package.prototype.install` of the callback draft
(`src/index.js` lines 279-295): an in-flight package's `install` was
replaced by an immediate `end` emission in the constructor; otherwise
the name is checked for a namespace separator synchronously (before
any I/O), then `exists` performs the one filesystem check, and
`reallyInstall` runs unless the package already exists without
`force`. -/
def installA (p : Pkg) (localExists : Bool) (fetch : String → RawResult)
    (fileStatus : String → Nat) (depResult : Option ErrObj) : InstallOut × List Ev :=
  if p.inFlight then (InstallOut.ended, [])
  else if !(hasSlash p.name) then
    (InstallOut.invalidName ("invalid component name \"" ++ p.name ++ "\""), [])
  else if localExists && !p.force then
    (InstallOut.existsSignal, [Ev.fsExists (joinA p "component.json")])
  else
    let r := runA p fetch fileStatus depResult
    (InstallOut.ran r.fst, Ev.fsExists (joinA p "component.json") :: r.snd)

/-- The set of directories present after a trace of events, starting
from an arbitrary initial list: `mkdir` adds a directory, `rmrf`
recursively removes it (the directory itself and everything under
it). -/
def dirsAfter (init : List String) (t : List Ev) : List String :=
  t.foldl (fun ds e =>
    match e with
    | Ev.mkdirEv d => if ds.contains d then ds else d :: ds
    | Ev.rmrf d => ds.filter (fun x => !(x == d) && !((d ++ "/").data.isPrefixOf x.data))
    | _ => ds) init

/-- State of the shared bounded-concurrency pool of one package
instance: how many file transfers and how many dependency installs
are in flight.  Modelled from the spec: the `archan` channel that the
generator draft's constructor creates
(`this.channel = archan({concurrency: this.concurrency})`,
`src/index.js` lines 459-461) is an external library; the spec
describes it as one channel with a drain/push protocol — a task
requests a slot, blocking if none is free, and releases it on
completion — shared between `getFiles` and `getDependencies`. -/
structure ChanState where
  activeFiles : Nat
  activeDeps : Nat
deriving Repr, DecidableEq

/-- The channel's concurrency limit of a package: unset means
unlimited. -/
def Pkg.channelLimit (p : Pkg) : Option Nat := p.concurrency

/-- Whether `drain` lets a new unit of work start: always, when no
limit is set; otherwise only while the in-flight count is below the
limit. -/
def slotFree (limit : Option Nat) (s : ChanState) : Bool :=
  match limit with
  | none => true
  | some n => decide (s.activeFiles + s.activeDeps < n)

/-- One scheduling step of the shared pool: `getFiles` starts a file
transfer (`src/index.js` lines 594-600) or `getDependencies` starts a
child install (lines 634-648), each only after `ch.drain()` finds a
slot free; or a previously started unit completes and releases its
slot via the `ch.push()` callback. -/
inductive ChanStep (limit : Option Nat) : ChanState → ChanState → Prop
  | startFile {s : ChanState} (h : slotFree limit s = true) :
      ChanStep limit s ⟨s.activeFiles + 1, s.activeDeps⟩
  | startDep {s : ChanState} (h : slotFree limit s = true) :
      ChanStep limit s ⟨s.activeFiles, s.activeDeps + 1⟩
  | finishFile {s : ChanState} (h : 0 < s.activeFiles) :
      ChanStep limit s ⟨s.activeFiles - 1, s.activeDeps⟩
  | finishDep {s : ChanState} (h : 0 < s.activeDeps) :
      ChanStep limit s ⟨s.activeFiles, s.activeDeps - 1⟩

/-- States of the shared pool reachable from the idle channel the
constructor creates. -/
inductive ChanReachable (limit : Option Nat) : ChanState → Prop
  | init : ChanReachable limit ⟨0, 0⟩
  | step {s t : ChanState} : ChanReachable limit s → ChanStep limit s t →
      ChanReachable limit t

/-- Concrete package used to exercise the embedding: the test file's
`component/tip@0.3.0` with the default destination and mirrors. -/
def tipPkg : Pkg :=
  { name := "component/tip"
    version := "0.3.0"
    slug := "component/tip@0.3.0"
    dest := "components"
    remotes := defaultRemotes
    force := false }

/-- A two-mirror list for the failover scenarios. -/
def mirrorsTwo : List String := ["https://m1.test", "https://m2.test"]

/-- The spec's example manifest: `scripts: ["index.js"],
styles: ["a.css"]`. -/
def demoMan : Manifest := { scripts := some ["index.js"], styles := some ["a.css"] }

/-- `component/tip@0.3.0` against the two-mirror list. -/
def twoMirrorPkg : Pkg := { tipPkg with remotes := mirrorsTwo }

/-- Network oracle: the first mirror 404s the manifest, the second
serves `demoMan`. -/
def failoverFetch : String → RawResult := fun u =>
  if u == "https://m2.test/component/tip/0.3.0/component.json" then RawResult.res 200 demoMan
  else RawResult.res 404 {}

/-- Network oracle: every request 404s. -/
def all404Fetch : String → RawResult := fun _ => RawResult.res 404 {}

/-- Network oracle: the first mirror's manifest fetch fails with a
500, everything else 404s. -/
def first500Fetch : String → RawResult := fun u =>
  if u == "https://m1.test/component/tip/0.3.0/component.json" then RawResult.res 500 {}
  else RawResult.res 404 {}

/-- Every file request succeeds. -/
def allOkFiles : String → Nat := fun _ => 200

/-- A package whose name has no namespace separator. -/
def noSlashPkg : Pkg :=
  { name := "tip"
    version := "0.3.0"
    slug := "tip@0.3.0"
    dest := "components"
    remotes := defaultRemotes
    force := false }

/-- The manifest URL of `tipPkg` at the default mirror. -/
def tipUrl : String := "https://raw.github.com/component/tip/0.3.0/component.json"

/-- A package with a concurrency limit of 2, for the shared-pool
claims. -/
def limitTwoPkg : Pkg := { tipPkg with concurrency := some 2 }

/-- The transfer set equals the order-concatenation of the seven
category lists (helper for the claim below). -/
theorem filesOf_eq_concat (m : Manifest) :
    filesOf m =
      m.scripts.getD [] ++ m.styles.getD [] ++ m.templates.getD [] ++ m.files.getD []
        ++ m.images.getD [] ++ m.fonts.getD [] ++ m.json.getD [] := by
  rcases m with ⟨s, st, t, f, i, fo, j, d, r⟩
  cases s <;> cases st <;> cases t <;> cases f <;> cases i <;> cases fo <;> cases j <;>
    simp [filesOf]

/-- C7: for every fetched manifest, the transfer set handed to the
file-transfer stage equals the concatenation of the manifest's
file-category lists in the fixed order scripts, styles, templates,
files, images, fonts, json, with absent categories contributing
nothing; the batch phase issues exactly one file transfer per element
of that set, in order, at the package's URL and destination path; on
the spec's example manifest the set is `["index.js", "a.css"]`. -/
theorem claimC7_transfer_set :
    (∀ m : Manifest, filesOf m =
      m.scripts.getD [] ++ m.styles.getD [] ++ m.templates.getD [] ++ m.files.getD []
        ++ m.images.getD [] ++ m.fonts.getD [] ++ m.json.getD [])
    ∧ filesOf demoMan = ["index.js", "a.css"]
    ∧ (∀ (p : Pkg) (base : String) (m : Manifest) (fileStatus : String → Nat)
        (depResult : Option ErrObj),
      (runBatchA p base m fileStatus depResult).snd.filterMap
          (fun e => match e with | Ev.getFileEv u d => some (u, d) | _ => none)
        = (filesOf m).map (fun f => (urlWith base p.name p.version f, joinA p f))) := by
  refine ⟨filesOf_eq_concat, rfl, ?_⟩
  intro p base m fileStatus depResult
  simp only [runBatchA, List.filterMap_append, List.filterMap_cons, List.filterMap_nil,
    List.filterMap_map]
  induction filesOf m with
  | nil => rfl
  | cons a l ih => simpa using ih

/-- C8: URL construction is the pure string concatenation
`mirror + "/" + name + "/" + version + "/" + file`; for
`component/tip@0.3.0` with the default mirror the manifest URL is
`https://raw.github.com/component/tip/0.3.0/component.json`, the slug
is `component/tip@0.3.0` and the package directory is
`components/component-tip`. -/
theorem claimC8_url_construction :
    (∀ base name version file,
      urlWith base name version file = urlForSpec base name version file)
    ∧ (∀ (p : Pkg) (f : String),
        Pkg.url p f = urlForSpec (p.remote.getD (p.remotes.headD "undefined")) p.name p.version f)
    ∧ (makePackage "component/tip" "0.3.0" {} []).fst = Except.ok tipPkg
    ∧ tipPkg.slug = "component/tip@0.3.0"
    ∧ dirnameA tipPkg = "components/component-tip"
    ∧ Pkg.url tipPkg "component.json"
        = "https://raw.github.com/component/tip/0.3.0/component.json" :=
  ⟨fun _ _ _ _ => rfl, fun _ _ => rfl, rfl, rfl, rfl, rfl⟩

/-- C4 counterexample: the claim says every success status (200-299)
makes the manifest fetch succeed, but at status 204 both drafts of
`getJSON` produce the typed fetch error instead of returning the
body. -/
theorem claimC4_counterexample :
    getJSON_A tipUrl (RawResult.res 204 {}) = Except.error (errorOf 204 tipUrl)
    ∧ getJSON_B tipUrl (RawResult.res 204 {}) = Except.error (errorOf 204 tipUrl)
    ∧ 200 ≤ 204 ∧ 204 ≤ 299 :=
  ⟨rfl, rfl, by norm_num, by norm_num⟩

/-- C4 amended: the callback draft's manifest fetch succeeds exactly
when the HTTP status is 200, the generator draft's exactly when it is
400 (the drafts' inconsistency); every other status produces the
typed fetch error of `error(res, url)` carrying the numeric status
and the offending URL. -/
theorem claimC4_status_check (s : Nat) (b : Manifest) (u : String) :
    (getJSON_A u (RawResult.res s b) = Except.ok b ↔ s = 200)
    ∧ (getJSON_B u (RawResult.res s b) = Except.ok b ↔ s = 400)
    ∧ (s ≠ 200 → getJSON_A u (RawResult.res s b) = Except.error (errorOf s u))
    ∧ (s ≠ 400 → getJSON_B u (RawResult.res s b) = Except.error (errorOf s u))
    ∧ (errorOf s u).status = some s ∧ (errorOf s u).url = some u := by
  refine ⟨?_, ?_, ?_, ?_, rfl, rfl⟩
  · by_cases h : s = 200 <;> simp [getJSON_A, h]
  · by_cases h : s = 400 <;> simp [getJSON_B, h]
  · intro h; simp [getJSON_A, h]
  · intro h; simp [getJSON_B, h]

/-- C4 witness: at status 500 the callback draft's fetch fails with
the typed error for that status and URL. -/
theorem claimC4_status_check_witness :
    getJSON_A tipUrl (RawResult.res 500 {}) = Except.error (errorOf 500 tipUrl) :=
  (claimC4_status_check 500 {} tipUrl).2.2.1 (by norm_num)

/-- C5: for every package that is not an in-flight duplicate and
whose name has no namespace separator, `install` fails synchronously
with the invalid-name error and the run performs zero network or
filesystem operations (an empty event trace). -/
theorem claimC5_invalid_name (p : Pkg) (localExists : Bool) (fetch : String → RawResult)
    (fileStatus : String → Nat) (depResult : Option ErrObj)
    (hflight : p.inFlight = false) (hname : hasSlash p.name = false) :
    installA p localExists fetch fileStatus depResult =
      (InstallOut.invalidName ("invalid component name \"" ++ p.name ++ "\""), []) := by
  simp [installA, hflight, hname]

/-- C5 witness: the package named `tip` fails immediately with the
invalid-name error and an empty trace. -/
theorem claimC5_invalid_name_witness :
    installA noSlashPkg false all404Fetch allOkFiles none =
      (InstallOut.invalidName "invalid component name \"tip\"", []) :=
  claimC5_invalid_name noSlashPkg false all404Fetch allOkFiles none rfl rfl

/-- C10: the constructor throws `pkg required` on an empty name and
`version required` on an empty version, in both cases before marking
the slug in the in-flight registry (the registry is returned
unchanged; the constructor performs no I/O); for every non-empty name
and version construction succeeds. -/
theorem claimC10_constructor (pkg ver : String) (opts : Options) (reg : List String) :
    (pkg = "" → makePackage pkg ver opts reg = (Except.error "pkg required", reg))
    ∧ (pkg ≠ "" → ver = "" → makePackage pkg ver opts reg = (Except.error "version required", reg))
    ∧ (pkg ≠ "" → ver ≠ "" → ∃ q, (makePackage pkg ver opts reg).fst = Except.ok q) := by
  refine ⟨?_, ?_, ?_⟩
  · intro h; subst h; simp [makePackage]
  · intro hp hv; subst hv; simp [makePackage, hp]
  · intro hp hv
    by_cases hstar : ver = "*"
    · subst hstar; simp [makePackage, hp]
    · simp [makePackage, hp, hstar, hv]

/-- C10 witness: concrete instances of all three clauses. -/
theorem claimC10_constructor_witness :
    makePackage "" "0.3.0" {} [] = (Except.error "pkg required", [])
    ∧ makePackage "component/tip" "" {} [] = (Except.error "version required", [])
    ∧ ∃ q, (makePackage "component/tip" "0.3.0" {} []).fst = Except.ok q :=
  ⟨(claimC10_constructor "" "0.3.0" {} []).1 rfl,
   (claimC10_constructor "component/tip" "" {} []).2.1 (by simp) rfl,
   (claimC10_constructor "component/tip" "0.3.0" {} []).2.2 (by simp) (by simp)⟩
/-- Every event of the batch phase is a directory creation, the
manifest write, or one file transfer of the transfer set (helper). -/
theorem runBatchA_mem (p : Pkg) (base : String) (m : Manifest) (fileStatus : String → Nat)
    (depResult : Option ErrObj) :
    ∀ e ∈ (runBatchA p base m fileStatus depResult).snd,
      e = Ev.mkdirEv (dirnameA p) ∨ e = Ev.writeFileEv (joinA p "component.json") ∨
      ∃ f ∈ filesOf m, e = Ev.getFileEv (urlWith base p.name p.version f) (joinA p f) := by
  intro e he
  simp only [runBatchA, List.mem_append, List.mem_cons, List.mem_map,
    List.not_mem_nil, or_false] at he
  rcases he with (h | h | h) | ⟨f, hf, rfl⟩
  · exact Or.inl h
  · exact Or.inr (Or.inl h)
  · exact Or.inl h
  · exact Or.inr (Or.inr ⟨f, hf, rfl⟩)

/-- A manifest-fetch error emitted by the mirror loop carries
`fatal = (404 != err.status) || last` (helper, by induction over the
mirror list). -/
theorem loopA_fetchErr_fatal (p : Pkg) (fetch : String → RawResult)
    (fileStatus : String → Nat) (depResult : Option ErrObj) :
    ∀ (rs : List String) (s : Option Nat) (f l : Bool),
      Ev.fetchErr s f l ∈ (loopA p fetch fileStatus depResult rs).snd →
      f = ((s != some 404) || l) := by
  intro rs
  induction rs with
  | nil =>
    intro s f l h
    simp [loopA] at h
  | cons r rest ih =>
    intro s f l h
    cases hj : getJSON_A (urlWith (remoteHref r) p.name p.version "component.json")
        (fetch (urlWith (remoteHref r) p.name p.version "component.json")) with
    | error e =>
      simp only [loopA, hj, List.mem_cons] at h
      rcases h with h | h | h
      · exact absurd h (by simp)
      · cases h
        rfl
      · exact ih s f l h
    | ok m =>
      cases hb : (runBatchA p (remoteHref r) m fileStatus depResult).fst with
      | none =>
        simp only [loopA, hj, hb, List.mem_cons] at h
        rcases h with h | h
        · exact absurd h (by simp)
        · rcases runBatchA_mem p (remoteHref r) m fileStatus depResult _ h with h | h | ⟨f', _, h⟩ <;>
            simp at h
      | some e =>
        simp only [loopA, hj, hb, List.mem_cons, List.mem_append] at h
        rcases h with h | h | h
        · exact absurd h (by simp)
        · rcases runBatchA_mem p (remoteHref r) m fileStatus depResult _ h with h | h | ⟨f', _, h⟩ <;>
            simp at h
        · rcases h with h | h
          · exact absurd h (by simp)
          · exact ih s f l h

/-- A batch error emitted by the mirror loop carries
`fatal = last` (helper). -/
theorem loopA_batchErr_fatal (p : Pkg) (fetch : String → RawResult)
    (fileStatus : String → Nat) (depResult : Option ErrObj) :
    ∀ (rs : List String) (f l : Bool),
      Ev.batchErr f l ∈ (loopA p fetch fileStatus depResult rs).snd → f = l := by
  intro rs
  induction rs with
  | nil =>
    intro f l h
    simp [loopA] at h
  | cons r rest ih =>
    intro f l h
    cases hj : getJSON_A (urlWith (remoteHref r) p.name p.version "component.json")
        (fetch (urlWith (remoteHref r) p.name p.version "component.json")) with
    | error e =>
      simp only [loopA, hj, List.mem_cons] at h
      rcases h with h | h | h
      · exact absurd h (by simp)
      · exact absurd h (by simp)
      · exact ih f l h
    | ok m =>
      cases hb : (runBatchA p (remoteHref r) m fileStatus depResult).fst with
      | none =>
        simp only [loopA, hj, hb, List.mem_cons] at h
        rcases h with h | h
        · exact absurd h (by simp)
        · rcases runBatchA_mem p (remoteHref r) m fileStatus depResult _ h with h | h | ⟨f', _, h⟩ <;>
            simp at h
      | some e =>
        simp only [loopA, hj, hb, List.mem_cons, List.mem_append] at h
        rcases h with h | h | h
        · exact absurd h (by simp)
        · rcases runBatchA_mem p (remoteHref r) m fileStatus depResult _ h with h | h | ⟨f', _, h⟩ <;>
            simp at h
        · rcases h with h | h
          · cases h
            rfl
          · exact ih f l h

/-- A failed run fetched the manifest of every mirror in the list:
the loop advances past every errored mirror (helper). -/
theorem loopA_failed_tried_all (p : Pkg) (fetch : String → RawResult)
    (fileStatus : String → Nat) (depResult : Option ErrObj) :
    ∀ rs : List String, (loopA p fetch fileStatus depResult rs).fst = Outcome.failed →
      ∀ r ∈ rs, Ev.getManifest (urlWith (remoteHref r) p.name p.version "component.json")
        ∈ (loopA p fetch fileStatus depResult rs).snd := by
  intro rs
  induction rs with
  | nil =>
    intro _ r hr
    exact absurd hr (List.not_mem_nil r)
  | cons r rest ih =>
    intro hfail r' hr'
    cases hj : getJSON_A (urlWith (remoteHref r) p.name p.version "component.json")
        (fetch (urlWith (remoteHref r) p.name p.version "component.json")) with
    | error e =>
      simp only [loopA, hj] at hfail ⊢
      rcases List.mem_cons.1 hr' with rfl | hr'
      · exact List.mem_cons_self _ _
      · exact List.mem_cons_of_mem _ (List.mem_cons_of_mem _ (ih hfail r' hr'))
    | ok m =>
      cases hb : (runBatchA p (remoteHref r) m fileStatus depResult).fst with
      | none =>
        simp only [loopA, hj, hb] at hfail
        exact absurd hfail (by simp)
      | some e =>
        simp only [loopA, hj, hb] at hfail ⊢
        rcases List.mem_cons.1 hr' with rfl | hr'
        · exact List.mem_cons_self _ _
        · refine List.mem_cons_of_mem _ ?_
          refine List.mem_append.2 (Or.inr ?_)
          exact List.mem_cons_of_mem _ (ih hfail r' hr')

/-- A failed run's trace ends with the recursive deletion of the
package directory followed by the terminal error emission (helper). -/
theorem loopA_failed_destroy (p : Pkg) (fetch : String → RawResult)
    (fileStatus : String → Nat) (depResult : Option ErrObj) :
    ∀ rs : List String, (loopA p fetch fileStatus depResult rs).fst = Outcome.failed →
      ∃ pre, (loopA p fetch fileStatus depResult rs).snd
        = pre ++ [Ev.rmrf (dirnameA p), Ev.fatalEmit] := by
  intro rs
  induction rs with
  | nil =>
    intro _
    exact ⟨[], rfl⟩
  | cons r rest ih =>
    intro hfail
    cases hj : getJSON_A (urlWith (remoteHref r) p.name p.version "component.json")
        (fetch (urlWith (remoteHref r) p.name p.version "component.json")) with
    | error e =>
      simp only [loopA, hj] at hfail ⊢
      obtain ⟨pre, hpre⟩ := ih hfail
      exact ⟨_ :: _ :: pre, by rw [hpre]; rfl⟩
    | ok m =>
      cases hb : (runBatchA p (remoteHref r) m fileStatus depResult).fst with
      | none =>
        simp only [loopA, hj, hb] at hfail
        exact absurd hfail (by simp)
      | some e =>
        simp only [loopA, hj, hb] at hfail ⊢
        obtain ⟨pre, hpre⟩ := ih hfail
        refine ⟨Ev.getManifest (urlWith (remoteHref r) p.name p.version "component.json")
          :: ((runBatchA p (remoteHref r) m fileStatus depResult).snd
          ++ Ev.batchErr rest.isEmpty rest.isEmpty :: pre), ?_⟩
        rw [hpre]
        simp

/-- C3: every installation run that ends in the fatal failure outcome
deletes the package's destination directory recursively before
emitting the terminal error — the trace ends with `rmrf` of the
package directory followed by the terminal error, and whatever
directories existed before, the package directory does not exist
after the run. -/
theorem claimC3_cleanup (p : Pkg) (fetch : String → RawResult) (fileStatus : String → Nat)
    (depResult : Option ErrObj)
    (hfail : (runA p fetch fileStatus depResult).fst = Outcome.failed) :
    (∃ pre, (runA p fetch fileStatus depResult).snd
        = pre ++ [Ev.rmrf (dirnameA p), Ev.fatalEmit])
    ∧ ∀ init : List String,
        dirnameA p ∉ dirsAfter init (runA p fetch fileStatus depResult).snd := by
  obtain ⟨pre, hpre⟩ := loopA_failed_destroy p fetch fileStatus depResult p.remotes hfail
  refine ⟨⟨pre, hpre⟩, ?_⟩
  intro init
  show dirnameA p ∉ dirsAfter init (loopA p fetch fileStatus depResult p.remotes).snd
  rw [hpre, dirsAfter, List.foldl_append]
  simp only [List.foldl_cons, List.foldl_nil]
  intro hmem
  have h2 := List.mem_filter.1 hmem
  simp at h2

/-- C3 witness: the all-mirrors-404 scenario — both mirrors 404 the
manifest, the run fails, and the destination directory is removed
before the terminal error. -/
theorem claimC3_cleanup_witness :
    (∃ pre, (runA twoMirrorPkg all404Fetch allOkFiles none).snd
        = pre ++ [Ev.rmrf (dirnameA twoMirrorPkg), Ev.fatalEmit])
    ∧ ∀ init : List String,
        dirnameA twoMirrorPkg ∉ dirsAfter init (runA twoMirrorPkg all404Fetch allOkFiles none).snd :=
  claimC3_cleanup twoMirrorPkg all404Fetch allOkFiles none rfl

/-- C2 counterexample: with two mirrors and a 500 from the first
mirror's manifest fetch, the emitted error is marked `fatal = true`
although mirror 1 is not the last of the 2 mirrors — refuting
"fatal iff last mirror". -/
theorem claimC2_counterexample :
    Ev.fetchErr (some 500) true false ∈ (runA twoMirrorPkg first500Fetch allOkFiles none).snd
    ∧ twoMirrorPkg.remotes.length = 2 :=
  ⟨by decide, rfl⟩

/-- C2 amended: a manifest-fetch error at mirror i is marked fatal
iff its HTTP status differs from 404 or i is the last mirror; a
transfer/dependency batch error is marked fatal iff i is the last
mirror; regardless of the marking the engine advances, and a run
fails only after the manifest of every mirror in the list has been
attempted. -/
theorem claimC2_fatality (p : Pkg) (fetch : String → RawResult) (fileStatus : String → Nat)
    (depResult : Option ErrObj) :
    (∀ (s : Option Nat) (f l : Bool),
        Ev.fetchErr s f l ∈ (runA p fetch fileStatus depResult).snd →
        f = ((s != some 404) || l))
    ∧ (∀ f l : Bool, Ev.batchErr f l ∈ (runA p fetch fileStatus depResult).snd → f = l)
    ∧ ((runA p fetch fileStatus depResult).fst = Outcome.failed →
        ∀ r ∈ p.remotes,
          Ev.getManifest (urlWith (remoteHref r) p.name p.version "component.json")
            ∈ (runA p fetch fileStatus depResult).snd) :=
  ⟨loopA_fetchErr_fatal p fetch fileStatus depResult p.remotes,
   loopA_batchErr_fatal p fetch fileStatus depResult p.remotes,
   loopA_failed_tried_all p fetch fileStatus depResult p.remotes⟩

/-- C2 amended witness: instantiated at the 500-on-first-mirror run:
the marking equation at the concrete emitted error, and the
all-mirrors-attempted clause at the failed run. -/
theorem claimC2_fatality_witness :
    (true : Bool) = ((some 500 != some 404) || false)
    ∧ Ev.getManifest "https://m2.test/component/tip/0.3.0/component.json"
        ∈ (runA twoMirrorPkg first500Fetch allOkFiles none).snd :=
  ⟨(claimC2_fatality twoMirrorPkg first500Fetch allOkFiles none).1 (some 500) true false
     (by decide),
   (claimC2_fatality twoMirrorPkg first500Fetch allOkFiles none).2.2 rfl "https://m2.test"
     (by decide)⟩

/-- C9: file transfers and dependency installs of one package draw
from a single shared pool sized by the package's concurrency limit:
in every reachable channel state the in-flight file transfers plus
dependency installs never exceed the limit; at saturation only
completion steps are possible (a new start blocks until a slot
frees); with no limit set, a slot is always free (unlimited
parallelism). -/
theorem claimC9_shared_pool (p : Pkg) :
    (∀ n : Nat, p.concurrency = some n →
      ∀ s : ChanState, ChanReachable p.channelLimit s → s.activeFiles + s.activeDeps ≤ n)
    ∧ (∀ (n : Nat) (s t : ChanState), p.concurrency = some n →
        s.activeFiles + s.activeDeps = n → ChanStep p.channelLimit s t →
        t.activeFiles + t.activeDeps + 1 = n)
    ∧ (p.concurrency = none → ∀ s : ChanState, slotFree p.channelLimit s = true) := by
  refine ⟨?_, ?_, ?_⟩
  · intro n hn s hs
    have hl : p.channelLimit = some n := hn
    induction hs with
    | init => exact Nat.zero_le n
    | step hr hstep ih =>
      cases hstep with
      | startFile h =>
        rw [hl] at h
        simp only [slotFree, decide_eq_true_eq] at h
        dsimp only
        omega
      | startDep h =>
        rw [hl] at h
        simp only [slotFree, decide_eq_true_eq] at h
        dsimp only
        omega
      | finishFile h =>
        dsimp only
        omega
      | finishDep h =>
        dsimp only
        omega
  · intro n s t hn hsum hstep
    have hl : p.channelLimit = some n := hn
    cases hstep with
    | startFile h =>
      rw [hl] at h
      simp only [slotFree, decide_eq_true_eq] at h
      dsimp only
      omega
    | startDep h =>
      rw [hl] at h
      simp only [slotFree, decide_eq_true_eq] at h
      dsimp only
      omega
    | finishFile h =>
      dsimp only
      omega
    | finishDep h =>
      dsimp only
      omega
  · intro h s
    have hl : p.channelLimit = none := h
    rw [hl]
    rfl

/-- C9 witness: with limit 2, the state with one file transfer and
one dependency install in flight is reachable and satisfies the
bound. -/
theorem claimC9_shared_pool_witness :
    ChanReachable (Pkg.channelLimit limitTwoPkg) ⟨1, 1⟩
    ∧ (1 : Nat) + 1 ≤ 2 := by
  have reach : ChanReachable (Pkg.channelLimit limitTwoPkg) ⟨1, 1⟩ :=
    ChanReachable.step
      (ChanReachable.step ChanReachable.init (ChanStep.startFile (by decide)))
      (ChanStep.startDep (by decide))
  exact ⟨reach, (claimC9_shared_pool limitTwoPkg).1 2 rfl ⟨1, 1⟩ reach⟩

/-- C6: constructing the same slug twice in one process marks the
in-flight registry on the first construction and never clears it
(the registry only grows); the second package is flagged in-flight
and its `install` completes immediately with the `end` signal and an
empty trace — no network manifest fetch and no file fetch. -/
theorem claimC6_inflight (pkg ver : String) (opts : Options) (reg0 : List String)
    (localExists : Bool) (fetch : String → RawResult) (fileStatus : String → Nat)
    (depResult : Option ErrObj) (hp : pkg ≠ "") (hv : ver ≠ "") :
    ∃ p1 reg1 p2 reg2,
      makePackage pkg ver opts reg0 = (Except.ok p1, reg1)
      ∧ reg1.contains p1.slug = true
      ∧ (∀ s ∈ reg0, s ∈ reg1)
      ∧ makePackage pkg ver opts reg1 = (Except.ok p2, reg2)
      ∧ p2.inFlight = true
      ∧ reg2 = reg1
      ∧ installA p2 localExists fetch fileStatus depResult = (InstallOut.ended, []) := by
  have hp2 : (pkg == "") = false := by simp [hp]
  have hv2 : ((if ver == "*" then "master" else ver) == "") = false := by
    rcases eq_or_ne ver "*" with h | h
    · simp [h]
    · simp [h, hv]
  have hmk : ∀ reg : List String, makePackage pkg ver opts reg =
      (Except.ok { name := pkg
                   version := if ver == "*" then "master" else ver
                   slug := pkg ++ "@" ++ (if ver == "*" then "master" else ver)
                   dest := opts.dest.getD "components"
                   remotes := opts.remotes.getD defaultRemotes
                   force := opts.force
                   concurrency := opts.concurrency
                   remote := none
                   inFlight := reg.contains (pkg ++ "@" ++ (if ver == "*" then "master" else ver)) },
       if reg.contains (pkg ++ "@" ++ (if ver == "*" then "master" else ver)) then reg
       else (pkg ++ "@" ++ (if ver == "*" then "master" else ver)) :: reg) := by
    intro reg
    simp only [makePackage, hp2, hv2, Bool.false_eq_true, if_false]
  set slug := pkg ++ "@" ++ (if ver == "*" then "master" else ver) with hslug
  set reg1 := if reg0.contains slug then reg0 else slug :: reg0 with hreg1
  have hc1 : reg1.contains slug = true := by
    by_cases hcc : slug ∈ reg0 <;>
      simp [hreg1, List.contains, List.elem_eq_mem, hcc]
  have hmem : slug ∈ reg1 := by
    simpa [List.contains, List.elem_eq_mem] using hc1
  refine ⟨_, reg1, _, _, hmk reg0, ?_, ?_, hmk reg1, ?_, ?_, ?_⟩
  · exact hc1
  · intro s hs
    by_cases hcc : slug ∈ reg0 <;>
      simp [hreg1, List.contains, List.elem_eq_mem, hcc, hs]
  · exact hc1
  · simp [hc1, hmem]
  · simp [installA, hc1, hmem]

/-- C6 witness: `component/tip@0.3.0` constructed twice from the
empty registry. -/
theorem claimC6_inflight_witness :
    ∃ p1 reg1 p2 reg2,
      makePackage "component/tip" "0.3.0" {} [] = (Except.ok p1, reg1)
      ∧ reg1.contains p1.slug = true
      ∧ (∀ s ∈ ([] : List String), s ∈ reg1)
      ∧ makePackage "component/tip" "0.3.0" {} reg1 = (Except.ok p2, reg2)
      ∧ p2.inFlight = true
      ∧ reg2 = reg1
      ∧ installA p2 false all404Fetch allOkFiles none = (InstallOut.ended, []) :=
  claimC6_inflight "component/tip" "0.3.0" {} [] false all404Fetch allOkFiles none
    (by decide) (by decide)

/-- C1: with mirrors `[M1, M2]`, a 404 from M1's manifest fetch and a
200 from M2's, installation succeeds with M2 bound as the active
mirror, and every file transfer of the run is addressed to a URL
built on M2's stripped base. -/
theorem claimC1_mirror_failover (p : Pkg) (fetch : String → RawResult)
    (fileStatus : String → Nat) (m1 m2 : String) (b1 man : Manifest)
    (hrem : p.remotes = [m1, m2])
    (h1 : fetch (urlWith (remoteHref m1) p.name p.version "component.json")
        = RawResult.res 404 b1)
    (h2 : fetch (urlWith (remoteHref m2) p.name p.version "component.json")
        = RawResult.res 200 man)
    (hfiles : ∀ f ∈ filesOf man,
        fileStatus (urlWith (remoteHref m2) p.name p.version f) = 200) :
    (runA p fetch fileStatus none).fst = Outcome.success (remoteHref m2)
    ∧ ∀ u d, Ev.getFileEv u d ∈ (runA p fetch fileStatus none).snd →
        ∃ f ∈ filesOf man, u = urlWith (remoteHref m2) p.name p.version f ∧ d = joinA p f := by
  have hb : (runBatchA p (remoteHref m2) man fileStatus none).fst = none := by
    simp only [runBatchA]
    have hfil : (filesOf man).filter
        (fun f => fileStatus (urlWith (remoteHref m2) p.name p.version f) != 200) = [] := by
      rw [List.filter_eq_nil_iff]
      intro f hf
      simp [hfiles f hf]
    rw [hfil]
    cases man.dependencies <;> simp
  have hj1 : getJSON_A (urlWith (remoteHref m1) p.name p.version "component.json")
      (fetch (urlWith (remoteHref m1) p.name p.version "component.json"))
      = Except.error (errorOf 404 (urlWith (remoteHref m1) p.name p.version "component.json")) := by
    rw [h1]; rfl
  have hj2 : getJSON_A (urlWith (remoteHref m2) p.name p.version "component.json")
      (fetch (urlWith (remoteHref m2) p.name p.version "component.json")) = Except.ok man := by
    rw [h2]; rfl
  have hrun : runA p fetch fileStatus none
      = (Outcome.success (remoteHref m2),
         Ev.getManifest (urlWith (remoteHref m1) p.name p.version "component.json")
           :: Ev.fetchErr (some 404) false false
           :: Ev.getManifest (urlWith (remoteHref m2) p.name p.version "component.json")
           :: (runBatchA p (remoteHref m2) man fileStatus none).snd) := by
    simp only [runA, hrem, loopA, hj1, hj2, hb, errorOf]
    rfl
  rw [hrun]
  refine ⟨rfl, ?_⟩
  intro u d hmem
  rcases List.mem_cons.1 hmem with h | hmem
  · exact absurd h (by simp)
  rcases List.mem_cons.1 hmem with h | hmem
  · exact absurd h (by simp)
  rcases List.mem_cons.1 hmem with h | hmem
  · exact absurd h (by simp)
  rcases runBatchA_mem p (remoteHref m2) man fileStatus none _ hmem with h | h | ⟨f, hf, h⟩
  · exact absurd h (by simp)
  · exact absurd h (by simp)
  · refine ⟨f, hf, ?_, ?_⟩
    · cases h
      rfl
    · cases h
      rfl

/-- C1 witness: the concrete failover run — `component/tip@0.3.0`,
first mirror 404s, second serves the example manifest, all file
requests succeed. -/
theorem claimC1_mirror_failover_witness :
    (runA twoMirrorPkg failoverFetch allOkFiles none).fst
        = Outcome.success (remoteHref "https://m2.test")
    ∧ ∀ u d, Ev.getFileEv u d ∈ (runA twoMirrorPkg failoverFetch allOkFiles none).snd →
        ∃ f ∈ filesOf demoMan,
          u = urlWith (remoteHref "https://m2.test") twoMirrorPkg.name twoMirrorPkg.version f
          ∧ d = joinA twoMirrorPkg f :=
  claimC1_mirror_failover twoMirrorPkg failoverFetch allOkFiles
    "https://m1.test" "https://m2.test" {} demoMan rfl rfl rfl (fun _ _ => rfl)
